import Mathlib

/-!
Verification development for the spreadsheet-driven options trading engine
(`a_new_search_ltp_v1.py`).  The Python source is shallowly embedded below:
spreadsheet cells are `Option CellVal` (a cell is empty or holds a number or
a string), the polling loop of the quote aggregator is modelled with an
explicit fuel bound (one unit of fuel per read attempt), and Python
exceptions (`TypeError`, `ValueError`, `StopIteration`) are modelled with
`Except`.  Wall-clock readings enter every function as explicit
hour/minute arguments.
-/

namespace Trader

/-- Model of a Python string resident in a spreadsheet cell.  Since string
parsing behaviour is what matters to the engine (never the characters
themselves), the value carries the outcome of `float(s)` and `int(s)`
alongside the raw text: `asFloat`/`asInt` are `none` exactly when the Python
conversion would raise. -/
structure StrVal where
  s : String
  asFloat : Option ℚ
  asInt : Option ℤ
deriving DecidableEq

/-- Value held in a non-empty spreadsheet cell: a number (Python int/float,
modelled as `ℚ`) or a string.  An empty cell is `none : Option CellVal`. -/
inductive CellVal where
  | num (x : ℚ)
  | str (v : StrVal)
deriving DecidableEq

/-- Python exceptions that the embedded code can raise. -/
inductive PyError where
  | typeError
  | valueError
  | stopIteration
deriving DecidableEq

/-- Python `float(v)` on a cell value: numbers convert to themselves,
strings convert according to their recorded parse result
(`ValueError` when the string does not parse). -/
def pyFloatVal : CellVal → Except PyError ℚ
  | .num x => .ok x
  | .str v =>
    match v.asFloat with
    | some x => .ok x
    | none => .error .valueError

/-- Python `float(c)` on the contents of a cell read: `float(None)` raises
`TypeError`. -/
def pyFloatOf : Option CellVal → Except PyError ℚ
  | none => .error .typeError
  | some v => pyFloatVal v

/-- Python truthiness of a cell value: `0` and `0.0` and the empty string
are falsy, everything else is truthy. -/
def pyTruthy : CellVal → Bool
  | .num x => decide (x ≠ 0)
  | .str v => decide (v.s ≠ "")

/-- Python `int(x)` on a float: truncation toward zero. -/
def ratTrunc (x : ℚ) : ℤ :=
  if 0 ≤ x then ⌊x⌋ else -⌊-x⌋

/-- Python `int(v)` on a cell value (used on the strike cell):
numbers truncate toward zero, strings use their recorded parse result. -/
def pyInt : CellVal → Except PyError ℤ
  | .num x => .ok (ratTrunc x)
  | .str v =>
    match v.asInt with
    | some n => .ok n
    | none => .error .valueError

/-- Python `s.lower()` for the ASCII strings handled by the engine,
character by character. -/
def pyLower (s : String) : String :=
  String.mk (s.data.map Char.toLower)

/-- Python `s.upper()` for the ASCII strings handled by the engine. -/
def pyUpper (s : String) : String :=
  String.mk (s.data.map Char.toUpper)

/-- Python `s.strip()`: whitespace removed from both ends. -/
def pyStrip (s : String) : String :=
  String.mk
    (((s.data.dropWhile Char.isWhitespace).reverse.dropWhile Char.isWhitespace).reverse)

/-- Loop of CPython `min(iterable, key=k)` after the first element has been
taken as the initial best: the best is replaced only when a later element's
key is strictly smaller, so the first minimum encountered wins. -/
def pyMinAux (key : α → ℚ) (best : α) : List α → α
  | [] => best
  | x :: xs => pyMinAux key (if key x < key best then x else best) xs

/-- Python `min(l, key)` (`none` on the empty list, where Python raises
`ValueError`). -/
def pyMinBy (key : α → ℚ) : List α → Option α
  | [] => none
  | a :: as => some (pyMinAux key a as)

/-- Loop of CPython `max(iterable, key=k)`: the best is replaced only when a
later element's key is strictly greater, so the first maximum wins. -/
def pyMaxAux (key : α → ℚ) (best : α) : List α → α
  | [] => best
  | x :: xs => pyMaxAux key (if key best < key x then x else best) xs

/-- Python `max(l, key)` (`none` on the empty list). -/
def pyMaxBy (key : α → ℚ) : List α → Option α
  | [] => none
  | a :: as => some (pyMaxAux key a as)

/-- Auxiliary recursion for the comprehension
`[(i + 1, float(v)) for i, v in enumerate(values) if isinstance(v, (int, float))]`
of `find_nearest_row`: `i` is the current 0-based index, the produced first
component is the 1-based spreadsheet row.  Strings are skipped even when
they would parse as numbers, exactly as `isinstance(v, (int, float))` does. -/
def numericAux : Nat → List (Option CellVal) → List (Nat × ℚ)
  | _, [] => []
  | i, c :: rest =>
    match c with
    | some (.num x) => (i + 1, x) :: numericAux (i + 1) rest
    | _ => numericAux (i + 1) rest

/-- The `numeric_values` list built by `find_nearest_row` from a whole
spreadsheet column. -/
def numericValues (values : List (Option CellVal)) : List (Nat × ℚ) :=
  numericAux 0 values

/-- Embedding of `find_nearest_row(sheet, column_letter, search_value)`
(src/a_new_search_ltp_v1.py lines 115-120): filter the column down to its
numeric cells (paired with 1-based row numbers), return `None` when no
numeric cell exists, otherwise return the pair minimizing
`abs(x[1] - float(search_value))`.  `float(search_value)` is evaluated
inside the `min` key, hence only when the candidate list is non-empty;
`float(None)` raises `TypeError`. -/
def find_nearest_row (values : List (Option CellVal)) (search_value : Option CellVal) :
    Except PyError (Option (Nat × ℚ)) :=
  let nv := numericValues values
  if nv.isEmpty then .ok none
  else
    match pyFloatOf search_value with
    | .error e => .error e
    | .ok t => .ok (pyMinBy (fun p => |p.2 - t|) nv)

/-- Model of the order dict returned by `write_position`
(src/a_new_search_ltp_v1.py lines 164-172).  `q_value`/`k_value` start as
`None` and are overwritten by `fetch_qk_values`. -/
structure Order where
  row : Nat
  option_symbol : String
  lot_size : Nat
  buy_or_sell : String
  option_type : String
  q_value : Option CellVal
  k_value : Option CellVal
deriving DecidableEq

/-- Model of the `Option_Chain_Output` sheet: the CALL premium column `J`,
the PUT premium column `V` and the strike column `P`, each indexed from
spreadsheet row 1 at list position 0. -/
structure ChainSheet where
  colJ : List (Option CellVal)
  colV : List (Option CellVal)
  colP : List (Option CellVal)

/-- Model of the `Trade_Terminal` sheet as seen by one monitoring tick.
Column `Q` (entry premium) is the only polled cell, so its reads are
indexed by the poll attempt number (the cell may populate while the
aggregator waits); columns `K` (live premium) and `T` (close flag) are read
once per use.  Column `A` is scanned by `find_last_row` for the next free
row. -/
structure TerminalStore where
  qcol : Nat → Nat → Option CellVal
  kcol : Nat → Option CellVal
  tcol : Nat → Option CellVal
  acol : List (Option CellVal)

/-- Reading cell `row` (1-based) of a column held as a list. -/
def readCell (col : List (Option CellVal)) (row : Nat) : Option CellVal :=
  match col.get? (row - 1) with
  | some c => c
  | none => none

/-- Embedding of the nested `find_last_row(sheet, col)` helper
(src/a_new_search_ltp_v1.py lines 122-123): one past the last non-empty
row of the column (row 2 when the column is entirely empty, matching
`end("up")` stopping at row 1). -/
def find_last_row (col : List (Option CellVal)) : Nat :=
  match (col.enum.filter fun p => p.2.isSome).getLast? with
  | some p => p.1 + 2
  | none => 2

/-- Embedding of `write_position(wb, symbol, expiry, search_ltp, lot_size,
option_type, buy_or_sell, entry_signal)` (src/a_new_search_ltp_v1.py lines
109-172).  `.ok none` models the Python `return None` (NOT_FOUND) paths:
invalid option type, no numeric candidate, or empty strike cell.  The
appended terminal row (columns A/M/N/O) is reflected in the returned
`Order`; an uncaught Python exception surfaces as `.error`. -/
def write_position (chain : ChainSheet) (acol : List (Option CellVal))
    (symbol expiry : String) (search_ltp : Option CellVal) (lot_size : Nat)
    (option_type buy_or_sell entry_signal : String) :
    Except PyError (Option Order) :=
  let _ := entry_signal
  let strike_col? : Option (List (Option CellVal)) :=
    if pyUpper option_type = "CALL" then some chain.colJ
    else if pyUpper option_type = "PUT" then some chain.colV
    else none
  match strike_col? with
  | none => .ok none
  | some strike_col =>
    match find_nearest_row strike_col search_ltp with
    | .error e => .error e
    | .ok none => .ok none
    | .ok (some opt_row) =>
      match readCell chain.colP opt_row.1 with
      | none => .ok none
      | some strike_cell_value =>
        match pyInt strike_cell_value with
        | .error e => .error e
        | .ok strike_price =>
          let option_symbol :=
            "NFO:" ++ symbol ++ expiry ++
              (if pyUpper option_type = "CALL" then "C" else "P") ++
              toString strike_price
          let target_row := find_last_row acol
          .ok (some
            { row := target_row
              option_symbol := option_symbol
              lot_size := lot_size
              buy_or_sell := buy_or_sell
              option_type := option_type
              q_value := none
              k_value := none })

/-- The opposite option type, from
`opposite_type = "PUT" if losing_type == "CALL" else "CALL"`
(src/a_new_search_ltp_v1.py line 312). -/
def oppositeType (t : String) : String :=
  if t = "CALL" then "PUT" else "CALL"

/-- Embedding of `search_opposite_and_write(wb, symbol, expiry, losing_leg,
lot_size)` (src/a_new_search_ltp_v1.py lines 308-324): delegate to
`write_position` for the opposite option type with the losing leg's
`k_value` as the search target, same lot size, side SELL. -/
def search_opposite_and_write (chain : ChainSheet) (store : TerminalStore)
    (symbol expiry : String) (losing_leg : Order) (lot_size : Nat) :
    Except PyError (Option Order) :=
  write_position chain store.acol symbol expiry losing_leg.k_value lot_size
    (oppositeType losing_leg.option_type) "SELL" "True_Market"

/-- The conversion applied when the polled `Q` cell turns out non-`None`
(src/a_new_search_ltp_v1.py lines 206-211): `q_value = float(q_val)` when
the conversion succeeds, otherwise `q_value = q_val` — the raw, possibly
non-numeric value, which still ends the wait because it is not `None`. -/
def coerceQ (v : CellVal) : CellVal :=
  match pyFloatVal v with
  | .ok x => .num x
  | .error _ => v

/-- Embedding of the polling loop of `fetch_qk_values`
(src/a_new_search_ltp_v1.py lines 196-211): read the leg's `Q` cell, sleep
200ms and retry while it is `None` and the per-order timeout has not
elapsed.  `attempt` numbers the read (the cell may populate between
reads), `fuel` is the number of reads that fit into the timeout; `none`
models the loop ending by timeout with `q_value` still `None`. -/
def pollEntry (qread : Nat → Option CellVal) : Nat → Nat → Option CellVal
  | _, 0 => none
  | attempt, fuel + 1 =>
    match qread attempt with
    | none => pollEntry qread (attempt + 1) fuel
    | some v => some (coerceQ v)

/-- The once-per-call `K` read of `fetch_qk_values`
(src/a_new_search_ltp_v1.py lines 212-217): `float(k_read)` when the cell
is non-`None`, with any exception (including a failing conversion) caught
and turned into `0.0`. -/
def readK (kread : Option CellVal) : ℚ :=
  match kread with
  | none => 0
  | some v =>
    match pyFloatVal v with
    | .ok x => x
    | .error _ => 0

/-- The update `order["q_value"] = q_value or 0.0`
(src/a_new_search_ltp_v1.py line 220): `None` and falsy values collapse to
`0.0`, truthy values — numeric or not — are kept as they are. -/
def pyOrZero : Option CellVal → CellVal
  | none => .num 0
  | some v => if pyTruthy v then v else .num 0

/-- Main loop of `fetch_qk_values` (src/a_new_search_ltp_v1.py lines
191-227), one iteration per executed order, threading the running totals,
the `order_qk` snapshot (row, q, k) and the updated order dicts.  The
accumulation `q_total += order["q_value"]` raises `TypeError` when the
stored value is a (truthy, unparseable) string. -/
def fetchGo (store : TerminalStore) (fuel : Nat) :
    List Order → ℚ → ℚ → List (Nat × CellVal × ℚ) → List Order →
    Except PyError (ℚ × ℚ × List (Nat × CellVal × ℚ) × List Order)
  | [], q_total, k_total, snap, acc => .ok (q_total, k_total, snap, acc)
  | o :: rest, q_total, k_total, snap, acc =>
    let qv := pyOrZero (pollEntry (store.qcol o.row) 0 fuel)
    let kv := readK (store.kcol o.row)
    let o' := { o with q_value := some qv, k_value := some (.num kv) }
    match qv with
    | .num x =>
      fetchGo store fuel rest (q_total + x) (k_total + kv)
        (snap ++ [(o.row, qv, kv)]) (acc ++ [o'])
    | .str _ => .error .typeError

/-- Embedding of `fetch_qk_values(wb, executed_orders, per_order_timeout)`
(src/a_new_search_ltp_v1.py lines 181-227).  Every order in the list is
processed — the source has no notion of a closed leg here, and the
`if not order: continue` guard never fires because the caller only appends
non-`None` dicts.  Returns `(q_total, k_total, order_qk, updated orders)`;
the updated orders model the in-place dict mutation. -/
def fetch_qk_values (store : TerminalStore) (executed_orders : List Order)
    (fuel : Nat) : Except PyError (ℚ × ℚ × List (Nat × CellVal × ℚ) × List Order) :=
  fetchGo store fuel executed_orders 0 0 [] []

/-- Projection of a fetch result onto its `(q_total, k_total)` pair. -/
def totalsOf (r : Except PyError (ℚ × ℚ × List (Nat × CellVal × ℚ) × List Order)) :
    Except PyError (ℚ × ℚ) :=
  r.map fun t => (t.1, t.2.1)

/-- Projection of a fetch result onto its `q_total`. -/
def qTotalOf (r : Except PyError (ℚ × ℚ × List (Nat × CellVal × ℚ) × List Order)) :
    Option ℚ :=
  match r with
  | .ok t => some t.1
  | .error _ => none

/-- Projection of a fetch result onto its `k_total`. -/
def kTotalOf (r : Except PyError (ℚ × ℚ × List (Nat × CellVal × ℚ) × List Order)) :
    Option ℚ :=
  match r with
  | .ok t => some t.2.1
  | .error _ => none

/-- The numeric contribution of one leg to `q_total` on a call where the
accumulation succeeds: the freshly polled entry value (0 on timeout or on a
falsy read). -/
def qContrib (store : TerminalStore) (fuel : Nat) (o : Order) : ℚ :=
  match pyOrZero (pollEntry (store.qcol o.row) 0 fuel) with
  | .num x => x
  | .str _ => 0

/-- The close marker written into column `T`:`"True_Market"`. -/
def trueMarketCell : CellVal :=
  .str { s := "True_Market", asFloat := none, asInt := none }

/-- The guard test `str(current_t_flag).strip().lower() != "true_market"`
(src/a_new_search_ltp_v1.py lines 247, 289), here stated positively.
`str(None) = "None"` and `str` of a number is a numeral, so only string
cells can normalize to `"true_market"`. -/
def isTrueMarket : Option CellVal → Bool
  | some (.str v) => pyLower (pyStrip v.s) == "true_market"
  | _ => false

/-- Read of a `T` cell through the close-marker writes already issued this
tick: the last write to the row wins, otherwise the cell's start-of-tick
contents. -/
def readWithWrites (base : Nat → Option CellVal) (writes : List (Nat × CellVal))
    (row : Nat) : Option CellVal :=
  match (writes.filter fun p => p.1 == row).getLast? with
  | some p => some p.2
  | none => base row

/-- The close instruction with its idempotence guard
(src/a_new_search_ltp_v1.py lines 246-249 and 288-290): read the leg's `T`
flag; when it does not already normalize to `"true_market"`, write
`"True_Market"` there.  Returns the updated write list and whether a write
was issued. -/
def closeLeg (base : Nat → Option CellVal) (writes : List (Nat × CellVal))
    (row : Nat) : List (Nat × CellVal) × Bool :=
  if isTrueMarket (readWithWrites base writes row) then (writes, false)
  else (writes ++ [(row, trueMarketCell)], true)

/-- Which of the two adjustment triggers fired on a tick. -/
inductive Trigger where
  | breach
  | distress
deriving DecidableEq

/-- Observable outcome of the stoploss adjustment block: which trigger
fired (if any), the close-marker writes issued to column `T`, the executed
order list after any replacement and refetch, the refreshed totals and
stoploss, and the adjustment counter. -/
structure AdjustResult where
  fired : Option Trigger
  tWrites : List (Nat × CellVal)
  executed_orders : List Order
  q_total : ℚ
  k_total : ℚ
  stoploss_value : ℚ
  adjustment_count : Nat
deriving DecidableEq

/-- Key of `max(executed_orders, key=lambda o: (o.get("k_value") or 0.0))`
(src/a_new_search_ltp_v1.py line 243).  In every reachable state `k_value`
is `None` or a float (it is only ever written by `fetch_qk_values`), and
`or 0.0` collapses `None` (and `0.0`) to `0.0`. -/
def keyK (o : Order) : ℚ :=
  match o.k_value with
  | some (.num x) => x
  | _ => 0

/-- The distress-band test `1 <= o.get("k_value", 0) <= 5`
(src/a_new_search_ltp_v1.py lines 282-283).  As with `keyK`, in every
reachable state `k_value` holds a float by the time the block runs (the
block follows a completed fetch), so the comparison is between numbers. -/
def bandHit (o : Order) : Bool :=
  match o.k_value with
  | some (.num x) => decide (1 ≤ x ∧ x ≤ 5)
  | _ => false

/-- The `any(1 <= o.get("k_value", 0) <= 5 for o in executed_orders)`
generator of the distress trigger. -/
def anyBand (executed_orders : List Order) : Bool :=
  executed_orders.any bandHit

/-- Tail of the premium-breach branch after the losing leg has been closed
(src/a_new_search_ltp_v1.py lines 255-273): place the opposite order via
`search_opposite_and_write`; only when a replacement was written, refetch
the totals and rebase the stoploss to `q_total * 1.001`. -/
def breachAfterClose (chain : ChainSheet) (store : TerminalStore)
    (symbol expiry : String) (lot_size : Nat) (executed_orders : List Order)
    (q_total k_total stoploss_value : ℚ) (adjustment_count : Nat) (fuel : Nat)
    (losing_leg : Order) (tWrites : List (Nat × CellVal)) :
    Except PyError AdjustResult :=
  match search_opposite_and_write chain store symbol expiry losing_leg lot_size with
  | .error e => .error e
  | .ok none =>
    .ok { fired := some .breach, tWrites, executed_orders,
          q_total, k_total, stoploss_value,
          adjustment_count := adjustment_count + 1 }
  | .ok (some new_order) =>
    match fetch_qk_values store (executed_orders ++ [new_order]) fuel with
    | .error e => .error e
    | .ok (q', k', _, orders') =>
      .ok { fired := some .breach, tWrites, executed_orders := orders',
            q_total := q', k_total := k',
            stoploss_value := q' * (1001 / 1000),
            adjustment_count := adjustment_count + 1 }

/-- Steps of the premium-breach branch after the losing leg has been
selected: the idempotence guard and close write, then the replacement
placement of `breachAfterClose`. -/
def breachAfterMax (chain : ChainSheet) (store : TerminalStore)
    (symbol expiry : String) (lot_size : Nat) (executed_orders : List Order)
    (q_total k_total stoploss_value : ℚ) (adjustment_count : Nat) (fuel : Nat)
    (losing_leg : Order) : Except PyError AdjustResult :=
  match closeLeg store.tcol [] losing_leg.row with
  | (_, false) =>
    .ok { fired := some .breach, tWrites := [], executed_orders,
          q_total, k_total, stoploss_value,
          adjustment_count := adjustment_count + 1 }
  | (tWrites, true) =>
    breachAfterClose chain store symbol expiry lot_size executed_orders
      q_total k_total stoploss_value adjustment_count fuel losing_leg tWrites

/-- Embedding of the premium-breach branch of the stoploss adjustment block
(src/a_new_search_ltp_v1.py lines 235-276): bump the adjustment counter,
pick the leg with maximal `k_value` (Python `max`, first maximum wins;
`ValueError` on an empty order list), then run the guard, close and
replacement steps of `breachAfterMax`. -/
def breachBranch (chain : ChainSheet) (store : TerminalStore)
    (symbol expiry : String) (lot_size : Nat) (executed_orders : List Order)
    (q_total k_total stoploss_value : ℚ) (adjustment_count : Nat) (fuel : Nat) :
    Except PyError AdjustResult :=
  match pyMaxBy keyK executed_orders with
  | none => .error .valueError
  | some losing_leg =>
    breachAfterMax chain store symbol expiry lot_size executed_orders
      q_total k_total stoploss_value adjustment_count fuel losing_leg

/-- Tail of the early-exit (distress-band) branch after the target leg has
been closed (src/a_new_search_ltp_v1.py lines 293-302): place the opposite
order, append it when one was written, then unconditionally refetch and
rebase the stoploss — unlike the breach branch, the refetch runs even when
the replacement failed.  The adjustment counter is not bumped anywhere in
this branch. -/
def distressAfterClose (chain : ChainSheet) (store : TerminalStore)
    (symbol expiry : String) (lot_size : Nat) (executed_orders : List Order)
    (q_total k_total stoploss_value : ℚ) (adjustment_count : Nat) (fuel : Nat)
    (target_leg : Order) (tWrites : List (Nat × CellVal)) :
    Except PyError AdjustResult :=
  match search_opposite_and_write chain store symbol expiry target_leg lot_size with
  | .error e => .error e
  | .ok new? =>
    let orders1 :=
      match new? with
      | some new_order => executed_orders ++ [new_order]
      | none => executed_orders
    match fetch_qk_values store orders1 fuel with
    | .error e => .error e
    | .ok (q', k', _, orders') =>
      .ok { fired := some .distress, tWrites, executed_orders := orders',
            q_total := q', k_total := k',
            stoploss_value := q' * (1001 / 1000), adjustment_count }

/-- Steps of the distress branch after the target leg has been found: the
idempotence guard and close write, then the replacement and unconditional
refetch of `distressAfterClose`. -/
def distressAfterFind (chain : ChainSheet) (store : TerminalStore)
    (symbol expiry : String) (lot_size : Nat) (executed_orders : List Order)
    (q_total k_total stoploss_value : ℚ) (adjustment_count : Nat) (fuel : Nat)
    (target_leg : Order) : Except PyError AdjustResult :=
  match closeLeg store.tcol [] target_leg.row with
  | (_, false) =>
    .ok { fired := some .distress, tWrites := [], executed_orders,
          q_total, k_total, stoploss_value, adjustment_count }
  | (tWrites, true) =>
    distressAfterClose chain store symbol expiry lot_size executed_orders
      q_total k_total stoploss_value adjustment_count fuel target_leg tWrites

/-- Head of the distress branch: select the first matching leg
(`next(...)` would raise `StopIteration` when none matches, unreachable
under the `any` guard), then run `distressAfterFind`. -/
def distressBranch (chain : ChainSheet) (store : TerminalStore)
    (symbol expiry : String) (lot_size : Nat) (executed_orders : List Order)
    (q_total k_total stoploss_value : ℚ) (adjustment_count : Nat) (fuel : Nat) :
    Except PyError AdjustResult :=
  match executed_orders.find? bandHit with
  | none => .error .stopIteration
  | some target_leg =>
    distressAfterFind chain store symbol expiry lot_size executed_orders
      q_total k_total stoploss_value adjustment_count fuel target_leg

/-- Embedding of the stoploss adjustment block as a whole
(src/a_new_search_ltp_v1.py lines 230-304): `if k_total > stoploss_value`
runs the premium-breach branch; `elif any(band) and now.hour < 14` runs
the distress branch; otherwise nothing happens.  The `elif` chain makes
the priority order explicit: the distress condition is only examined when
the breach condition is false. -/
def adjustBlock (chain : ChainSheet) (store : TerminalStore)
    (symbol expiry : String) (lot_size : Nat) (executed_orders : List Order)
    (now_hour : Nat) (q_total k_total stoploss_value : ℚ)
    (adjustment_count : Nat) (fuel : Nat) : Except PyError AdjustResult :=
  if stoploss_value < k_total then
    breachBranch chain store symbol expiry lot_size executed_orders
      q_total k_total stoploss_value adjustment_count fuel
  else if anyBand executed_orders && decide (now_hour < 14) then
    distressBranch chain store symbol expiry lot_size executed_orders
      q_total k_total stoploss_value adjustment_count fuel
  else
    .ok { fired := none, tWrites := [], executed_orders,
          q_total, k_total, stoploss_value, adjustment_count }

/-- Square-off configuration (src/a_new_search_ltp_v1.py lines 359-360). -/
def SQUARE_OFF_HOUR : Nat := 15

/-- Square-off minute (src/a_new_search_ltp_v1.py line 360). -/
def SQUARE_OFF_MINUTE : Nat := 29

/-- Outcome of one iteration of the monitoring loop. -/
inductive TickOutcome where
  | squaredOff (tWrites : List (Nat × CellVal))
  | nextTick (q_total k_total stoploss_value : ℚ)
      (executed_orders : List Order) (adjustment_count : Nat)
  | fatal (e : PyError)
deriving DecidableEq

/-- Whether a tick outcome is the square-off outcome. -/
def isSquaredOffB : TickOutcome → Bool
  | .squaredOff _ => true
  | _ => false

/-- Embedding of one iteration of the `while True` body of
`monitor_positions` (src/a_new_search_ltp_v1.py lines 378-410).  The
square-off gate `now.hour == SQUARE_OFF_HOUR and now.minute >=
SQUARE_OFF_MINUTE` is the first test of the tick; when it holds, every
order in `executed_orders` gets a `"True_Market"` write into its `T` cell
and the loop breaks.  Otherwise the tick refetches the totals, rebases the
stoploss to `q_total * 1.001`, and bumps the adjustment counter when the
breach condition holds (in this loop the rest of the adjustment body is
elided in the source).  An exception escaping the tick is `fatal`: the
enclosing `try` logs it and the loop ends. -/
def monitorTick (now_hour now_minute : Nat) (store : TerminalStore)
    (executed_orders : List Order) (adjustment_count : Nat) (fuel : Nat) :
    TickOutcome :=
  if now_hour = SQUARE_OFF_HOUR ∧ SQUARE_OFF_MINUTE ≤ now_minute then
    .squaredOff (executed_orders.map fun o => (o.row, trueMarketCell))
  else
    match fetch_qk_values store executed_orders fuel with
    | .error e => .fatal e
    | .ok (q_total, k_total, _, orders') =>
      let stoploss_value := q_total * (1001 / 1000)
      .nextTick q_total k_total stoploss_value orders'
        (if stoploss_value < k_total then adjustment_count + 1 else adjustment_count)

/-- The claim's reading of "current wall-clock time at or after h0:m0",
including any later hour. -/
def timeAtOrAfter (h m h0 m0 : Nat) : Prop :=
  h0 < h ∨ (h = h0 ∧ m0 ≤ m)

/-- Whether a leg counts as closed in the spec's sense: a close instruction
has been issued for it, i.e. its `T` cell holds the close marker. -/
def isClosed (store : TerminalStore) (o : Order) : Bool :=
  isTrueMarket (store.tcol o.row)

/-- Stated from the spec's words for comparison with the code: the live
total as the spec defines it, a sum over currently open (non-closed) legs
only. -/
def specOpenKTotal (store : TerminalStore) (orders : List Order) : ℚ :=
  ((orders.filter fun o => !isClosed store o).map fun o => readK (store.kcol o.row)).sum

/-- Stated from the spec's words for comparison with the code: the entry
total as the spec defines it, a sum over currently open (non-closed) legs
only. -/
def specOpenQTotal (store : TerminalStore) (orders : List Order) (fuel : Nat) : ℚ :=
  ((orders.filter fun o => !isClosed store o).map fun o => qContrib store fuel o).sum

/-! Concrete fixtures used by the closed counterexample and witness
theorems below. -/

/-- A string cell value that Python can convert to neither float nor int. -/
def strAbc : StrVal :=
  { s := "abc", asFloat := none, asInt := none }

/-- An order fixture with the given row, option type and premium fields. -/
def mkOrd (row : Nat) (otype : String) (q k : Option CellVal) : Order :=
  { row := row
    option_symbol := "NFO:NIFTY30OCT25C25000"
    lot_size := 75
    buy_or_sell := "SELL"
    option_type := otype
    q_value := q
    k_value := k }

/-- A terminal store whose `Q`, `K` and `T` cells read the same given value
on every row and at every poll attempt, with an empty column `A`. -/
def constStore (q k t : Option CellVal) : TerminalStore :=
  { qcol := fun _ _ => q
    kcol := fun _ => k
    tcol := fun _ => t
    acol := [] }

/-- A terminal store for the closed-leg counterexample: every `Q` cell
reads 10 and every `K` cell reads 5, and row 1 is already marked closed in
column `T`. -/
def storeRow1Closed : TerminalStore :=
  { qcol := fun _ _ => some (.num 10)
    kcol := fun _ => some (.num 5)
    tcol := fun r => if r = 1 then some trueMarketCell else none
    acol := [] }

/-- An option-chain sheet with no data at all. -/
def emptyChain : ChainSheet :=
  { colJ := [], colV := [], colP := [] }

/-- An option-chain sheet whose CALL column holds one numeric premium and
whose strike column holds a numeric strike for that row. -/
def oneCallChain : ChainSheet :=
  { colJ := [some (.num 12)]
    colV := [some (.num 12)]
    colP := [some (.num 25000)] }

/-! Lemmas about the embedded Python `min`/`max` loops. -/

/-- Full specification of the `min(..., key=...)` loop: starting from
`best`, the scan either keeps `best` (no element has a strictly smaller
key) or returns the first element whose key beats `best` and every other
element, with every element strictly before it having a strictly larger
key. -/
theorem pyMinAux_spec (key : α → ℚ) (l : List α) : ∀ (best : α),
    (pyMinAux key best l = best ∧ ∀ x ∈ l, key best ≤ key x) ∨
    (∃ i, ∃ hi : i < l.length, pyMinAux key best l = l.get ⟨i, hi⟩ ∧
      key (l.get ⟨i, hi⟩) < key best ∧
      (∀ j, ∀ hj : j < l.length, key (l.get ⟨i, hi⟩) ≤ key (l.get ⟨j, hj⟩)) ∧
      (∀ j, ∀ hj : j < l.length, j < i → key (l.get ⟨i, hi⟩) < key (l.get ⟨j, hj⟩))) := by
  induction l with
  | nil =>
    intro best
    exact Or.inl ⟨rfl, by simp⟩
  | cons x xs ih =>
    intro best
    have hstep : pyMinAux key best (x :: xs) =
        pyMinAux key (if key x < key best then x else best) xs := rfl
    by_cases h : key x < key best
    · rw [hstep, if_pos h]
      rcases ih x with ⟨he, hmin⟩ | ⟨i', hi', he, hlt, hmin, hfirst⟩
      · refine Or.inr ⟨0, by simp, ?_, ?_, ?_, ?_⟩
        · simpa using he
        · simpa using h
        · intro j hj
          cases j with
          | zero => simp
          | succ j' =>
            have hj' : j' < xs.length := by simpa using hj
            simpa using hmin (xs.get ⟨j', hj'⟩) (xs.get_mem _ _)
        · intro j hj hj0
          omega
      · refine Or.inr ⟨i' + 1, by simpa using Nat.succ_lt_succ hi', ?_, ?_, ?_, ?_⟩
        · simpa using he
        · have : key (xs.get ⟨i', hi'⟩) < key x := hlt
          calc key ((x :: xs).get ⟨i' + 1, by simpa using Nat.succ_lt_succ hi'⟩)
              = key (xs.get ⟨i', hi'⟩) := rfl
            _ < key x := hlt
            _ < key best := h
        · intro j hj
          cases j with
          | zero => exact le_of_lt hlt
          | succ j' =>
            have hj' : j' < xs.length := by simpa using hj
            exact hmin j' hj'
        · intro j hj hji
          cases j with
          | zero => exact hlt
          | succ j' =>
            have hj' : j' < xs.length := by simpa using hj
            exact hfirst j' hj' (by omega)
    · rw [hstep, if_neg h]
      have hbx : key best ≤ key x := le_of_not_lt h
      rcases ih best with ⟨he, hmin⟩ | ⟨i', hi', he, hlt, hmin, hfirst⟩
      · refine Or.inl ⟨he, ?_⟩
        intro y hy
        rcases List.mem_cons.mp hy with rfl | hy'
        · exact hbx
        · exact hmin y hy'
      · refine Or.inr ⟨i' + 1, by simpa using Nat.succ_lt_succ hi', ?_, ?_, ?_, ?_⟩
        · simpa using he
        · exact hlt
        · intro j hj
          cases j with
          | zero => exact le_trans (le_of_lt hlt) hbx
          | succ j' =>
            have hj' : j' < xs.length := by simpa using hj
            exact hmin j' hj'
        · intro j hj hji
          cases j with
          | zero => exact lt_of_lt_of_le hlt hbx
          | succ j' =>
            have hj' : j' < xs.length := by simpa using hj
            exact hfirst j' hj' (by omega)

/-- Specification of Python `min(l, key=...)` on a non-empty list: the
result is an element of the list at some position `i`, its key is minimal,
and every element strictly before position `i` has a strictly larger key
(so ties go to the earliest element). -/
theorem pyMinBy_spec (key : α → ℚ) (l : List α) (hne : l ≠ []) :
    ∃ i, ∃ hi : i < l.length, pyMinBy key l = some (l.get ⟨i, hi⟩) ∧
      (∀ j, ∀ hj : j < l.length, key (l.get ⟨i, hi⟩) ≤ key (l.get ⟨j, hj⟩)) ∧
      (∀ j, ∀ hj : j < l.length, j < i → key (l.get ⟨i, hi⟩) < key (l.get ⟨j, hj⟩)) := by
  match l with
  | [] => exact absurd rfl hne
  | a :: as =>
    have hres : pyMinBy key (a :: as) = some (pyMinAux key a as) := rfl
    rcases pyMinAux_spec key as a with ⟨he, hmin⟩ | ⟨i', hi', he, hlt, hmin, hfirst⟩
    · refine ⟨0, by simp, ?_, ?_, ?_⟩
      · rw [hres, he]; rfl
      · intro j hj
        cases j with
        | zero => simp
        | succ j' =>
          have hj' : j' < as.length := by simpa using hj
          simpa using hmin (as.get ⟨j', hj'⟩) (as.get_mem _ _)
      · intro j hj hj0
        omega
    · refine ⟨i' + 1, by simpa using Nat.succ_lt_succ hi', ?_, ?_, ?_⟩
      · rw [hres, he]; rfl
      · intro j hj
        cases j with
        | zero => exact le_of_lt hlt
        | succ j' =>
          have hj' : j' < as.length := by simpa using hj
          exact hmin j' hj'
      · intro j hj hji
        cases j with
        | zero => exact hlt
        | succ j' =>
          have hj' : j' < as.length := by simpa using hj
          exact hfirst j' hj' (by omega)

/-- The `max(..., key=...)` loop returns an element whose key bounds the
key of the start value and of every scanned element. -/
theorem pyMaxAux_le (key : α → ℚ) (l : List α) : ∀ (best : α),
    key best ≤ key (pyMaxAux key best l) ∧
      ∀ x ∈ l, key x ≤ key (pyMaxAux key best l) := by
  induction l with
  | nil =>
    intro best
    exact ⟨le_refl _, by simp⟩
  | cons x xs ih =>
    intro best
    have hstep : pyMaxAux key best (x :: xs) =
        pyMaxAux key (if key best < key x then x else best) xs := rfl
    by_cases h : key best < key x
    · rw [hstep, if_pos h]
      rcases ih x with ⟨h1, h2⟩
      refine ⟨le_trans (le_of_lt h) h1, ?_⟩
      intro y hy
      rcases List.mem_cons.mp hy with rfl | hy'
      · exact h1
      · exact h2 y hy'
    · rw [hstep, if_neg h]
      rcases ih best with ⟨h1, h2⟩
      refine ⟨h1, ?_⟩
      intro y hy
      rcases List.mem_cons.mp hy with rfl | hy'
      · exact le_trans (le_of_not_lt h) h1
      · exact h2 y hy'

/-- Python `max(l, key=...)`: every element's key is bounded by the key of
the returned element. -/
theorem pyMaxBy_le (key : α → ℚ) (l : List α) (m : α)
    (hm : pyMaxBy key l = some m) : ∀ x ∈ l, key x ≤ key m := by
  match l with
  | [] => cases hm
  | a :: as =>
    have hres : pyMaxBy key (a :: as) = some (pyMaxAux key a as) := rfl
    rw [hres] at hm
    have hm' : pyMaxAux key a as = m := Option.some.inj hm
    intro x hx
    rcases pyMaxAux_le key as a with ⟨h1, h2⟩
    rcases List.mem_cons.mp hx with rfl | hx'
    · rw [← hm']; exact h1
    · rw [← hm']; exact h2 x hx'

/-! Lemmas about the candidate list and the quote aggregator. -/

/-- Every row number produced by `numericAux i` exceeds `i`. -/
theorem numericAux_fst_gt (l : List (Option CellVal)) : ∀ (i : Nat),
    ∀ p ∈ numericAux i l, i < p.1 := by
  induction l with
  | nil => intro i p hp; cases hp
  | cons c rest ih =>
    intro i p hp
    match c with
    | some (.num x) =>
      rw [show numericAux i (some (.num x) :: rest) =
          (i + 1, x) :: numericAux (i + 1) rest from rfl] at hp
      rcases List.mem_cons.mp hp with rfl | hp'
      · omega
      · have := ih (i + 1) p hp'
        omega
    | some (.str v) =>
      have hp' : p ∈ numericAux (i + 1) rest := hp
      have := ih (i + 1) p hp'
      omega
    | none =>
      have hp' : p ∈ numericAux (i + 1) rest := hp
      have := ih (i + 1) p hp'
      omega

/-- The row numbers in `numericAux i l` are strictly increasing, i.e. the
candidate list preserves the input order of the column. -/
theorem numericAux_pairwise (l : List (Option CellVal)) : ∀ (i : Nat),
    (numericAux i l).Pairwise (fun a b => a.1 < b.1) := by
  induction l with
  | nil => intro i; exact List.Pairwise.nil
  | cons c rest ih =>
    intro i
    match c with
    | some (.num x) =>
      rw [show numericAux i (some (.num x) :: rest) =
          (i + 1, x) :: numericAux (i + 1) rest from rfl]
      refine List.Pairwise.cons ?_ (ih (i + 1))
      intro p hp
      have := numericAux_fst_gt rest (i + 1) p hp
      omega
    | some (.str v) => exact ih (i + 1)
    | none => exact ih (i + 1)

/-- The candidate list built by `find_nearest_row` has strictly increasing
row numbers. -/
theorem numericValues_pairwise (values : List (Option CellVal)) :
    (numericValues values).Pairwise (fun a b => a.1 < b.1) :=
  numericAux_pairwise values 0

/-- When a fetch completes without an exception, its totals are the start
totals plus the per-leg contributions of every order in the list —
independently of any leg's close status. -/
theorem fetchGo_ok_totals (store : TerminalStore) (fuel : Nat) :
    ∀ (orders : List Order) (q0 k0 : ℚ) (snap : List (Nat × CellVal × ℚ))
      (acc : List Order) (q k : ℚ) (snap' : List (Nat × CellVal × ℚ))
      (os : List Order),
      fetchGo store fuel orders q0 k0 snap acc = .ok (q, k, snap', os) →
      q = q0 + ((orders.map fun o => qContrib store fuel o).sum) ∧
      k = k0 + ((orders.map fun o => readK (store.kcol o.row)).sum) := by
  intro orders
  induction orders with
  | nil =>
    intro q0 k0 snap acc q k snap' os h
    have : q0 = q ∧ k0 = k := by
      rw [show fetchGo store fuel [] q0 k0 snap acc = .ok (q0, k0, snap, acc) from rfl] at h
      exact ⟨congrArg (fun t => t.1) (Except.ok.inj h),
             congrArg (fun t => t.2.1) (Except.ok.inj h)⟩
    simp [← this.1, ← this.2]
  | cons o rest ih =>
    intro q0 k0 snap acc q k snap' os h
    rw [show fetchGo store fuel (o :: rest) q0 k0 snap acc =
        (match pyOrZero (pollEntry (store.qcol o.row) 0 fuel) with
         | .num x =>
           fetchGo store fuel rest (q0 + x) (k0 + readK (store.kcol o.row))
             (snap ++ [(o.row, pyOrZero (pollEntry (store.qcol o.row) 0 fuel),
               readK (store.kcol o.row))])
             (acc ++ [{ o with
               q_value := some (pyOrZero (pollEntry (store.qcol o.row) 0 fuel)),
               k_value := some (.num (readK (store.kcol o.row))) }])
         | .str _ => .error .typeError) from rfl] at h
    cases hqv : pyOrZero (pollEntry (store.qcol o.row) 0 fuel) with
    | num x =>
      rw [hqv] at h
      rcases ih (q0 + x) (k0 + readK (store.kcol o.row)) _ _ q k snap' os h with ⟨h1, h2⟩
      constructor
      · rw [h1]
        have hc : qContrib store fuel o = x := by
          unfold qContrib
          rw [hqv]
        rw [List.map_cons, List.sum_cons, hc]
        ring
      · rw [h2]
        rw [List.map_cons, List.sum_cons]
        ring
    | str v =>
      rw [hqv] at h
      cases h

/-- The totals (and a raised exception) of a fetch depend only on the rows
of the orders and on the store, never on the premium fields already stored
in the order dicts: the entry premium is re-read on every call. -/
theorem fetchGo_totals_row_only (store : TerminalStore) (fuel : Nat) :
    ∀ (orders orders' : List Order) (q0 k0 : ℚ)
      (snap snap' : List (Nat × CellVal × ℚ)) (acc acc' : List Order),
      orders.map (fun o => o.row) = orders'.map (fun o => o.row) →
      totalsOf (fetchGo store fuel orders q0 k0 snap acc) =
        totalsOf (fetchGo store fuel orders' q0 k0 snap' acc') := by
  intro orders
  induction orders with
  | nil =>
    intro orders' q0 k0 snap snap' acc acc' hrows
    have : orders' = [] := by
      cases orders' with
      | nil => rfl
      | cons a as => cases hrows
    subst this
    rfl
  | cons o rest ih =>
    intro orders' q0 k0 snap snap' acc acc' hrows
    cases orders' with
    | nil => cases hrows
    | cons o' rest' =>
      have hrow : o.row = o'.row := by
        have := congrArg (fun l => l.headI) hrows
        simpa using this
      have hrest : rest.map (fun o => o.row) = rest'.map (fun o => o.row) := by
        have := congrArg (fun l => l.tail) hrows
        simpa using this
      rw [show fetchGo store fuel (o :: rest) q0 k0 snap acc =
          (match pyOrZero (pollEntry (store.qcol o.row) 0 fuel) with
           | .num x =>
             fetchGo store fuel rest (q0 + x) (k0 + readK (store.kcol o.row))
               (snap ++ [(o.row, pyOrZero (pollEntry (store.qcol o.row) 0 fuel),
                 readK (store.kcol o.row))])
               (acc ++ [{ o with
                 q_value := some (pyOrZero (pollEntry (store.qcol o.row) 0 fuel)),
                 k_value := some (.num (readK (store.kcol o.row))) }])
           | .str _ => .error .typeError) from rfl]
      rw [show fetchGo store fuel (o' :: rest') q0 k0 snap' acc' =
          (match pyOrZero (pollEntry (store.qcol o'.row) 0 fuel) with
           | .num x =>
             fetchGo store fuel rest' (q0 + x) (k0 + readK (store.kcol o'.row))
               (snap' ++ [(o'.row, pyOrZero (pollEntry (store.qcol o'.row) 0 fuel),
                 readK (store.kcol o'.row))])
               (acc' ++ [{ o' with
                 q_value := some (pyOrZero (pollEntry (store.qcol o'.row) 0 fuel)),
                 k_value := some (.num (readK (store.kcol o'.row))) }])
           | .str _ => .error .typeError) from rfl]
      rw [← hrow]
      cases hqv : pyOrZero (pollEntry (store.qcol o.row) 0 fuel) with
      | num x => exact ih rest' (q0 + x) (k0 + readK (store.kcol o.row)) _ _ _ _ hrest
      | str v => rfl

/-- When the entry cell never populates, the polling loop runs to its
timeout and leaves the entry premium unset. -/
theorem pollEntry_none (qread : Nat → Option CellVal)
    (h : ∀ t, qread t = none) : ∀ (fuel attempt : Nat),
    pollEntry qread attempt fuel = none := by
  intro fuel
  induction fuel with
  | zero => intro attempt; rfl
  | succ n ih =>
    intro attempt
    rw [show pollEntry qread attempt (n + 1) =
        (match qread attempt with
         | none => pollEntry qread (attempt + 1) n
         | some v => some (coerceQ v)) from rfl, h attempt]
    exact ih (attempt + 1)

/-- A non-`None` first read ends the polling wait immediately, whether or
not the value is numeric. -/
theorem pollEntry_first_read (qread : Nat → Option CellVal) (v : CellVal)
    (h : qread 0 = some v) (fuel : Nat) :
    pollEntry qread 0 (fuel + 1) = some (coerceQ v) := by
  rw [show pollEntry qread 0 (fuel + 1) =
      (match qread 0 with
       | none => pollEntry qread 1 fuel
       | some v => some (coerceQ v)) from rfl, h]

/-- Helper: a non-empty candidate list makes the `isEmpty` early return of
`find_nearest_row` fall through to the `min` search. -/
theorem find_nearest_row_of_ne (values : List (Option CellVal))
    (search_value : Option CellVal) (hne : numericValues values ≠ []) :
    find_nearest_row values search_value =
      match pyFloatOf search_value with
      | .error e => .error e
      | .ok t => .ok (pyMinBy (fun p => |p.2 - t|) (numericValues values)) := by
  unfold find_nearest_row
  rw [if_neg ?_]
  intro h
  exact hne (List.isEmpty_iff.mp h)

/-- C6: for every candidate column containing at least one numeric cell
and a numeric target `t`, the Strike Locator `find_nearest_row` returns a
numeric candidate of the column (non-numeric and empty cells are ignored)
whose premium minimizes the absolute distance to `t`; every candidate
strictly earlier in the list (equivalently, at a strictly smaller row
number) has a strictly larger distance, so among ties the
earliest-indexed candidate in input order is returned. -/
theorem claim6_locate_nearest (values : List (Option CellVal)) (t : ℚ)
    (hne : numericValues values ≠ []) :
    ∃ i, ∃ hi : i < (numericValues values).length,
      find_nearest_row values (some (.num t)) =
        .ok (some ((numericValues values).get ⟨i, hi⟩)) ∧
      (∀ j, ∀ hj : j < (numericValues values).length,
        |((numericValues values).get ⟨i, hi⟩).2 - t| ≤
          |((numericValues values).get ⟨j, hj⟩).2 - t|) ∧
      (∀ j, ∀ hj : j < (numericValues values).length, j < i →
        |((numericValues values).get ⟨i, hi⟩).2 - t| <
          |((numericValues values).get ⟨j, hj⟩).2 - t| ∧
        ((numericValues values).get ⟨j, hj⟩).1 <
          ((numericValues values).get ⟨i, hi⟩).1) := by
  have h1 := find_nearest_row_of_ne values (some (.num t)) hne
  rcases pyMinBy_spec (fun p => |p.2 - t|) (numericValues values) hne with
    ⟨i, hi, hres, hmin, hfirst⟩
  have hpw := numericValues_pairwise values
  rw [List.pairwise_iff_get] at hpw
  refine ⟨i, hi, ?_, ?_, ?_⟩
  · rw [h1]
    show Except.ok (pyMinBy (fun p => |p.2 - t|) (numericValues values)) = _
    rw [hres]
  · exact hmin
  · intro j hj hji
    exact ⟨hfirst j hj hji, hpw ⟨j, hj⟩ ⟨i, hi⟩ hji⟩

/-- Witness for C6 at a concrete column: cells
`[empty, "abc", 4, 6]` with target 5 — both numeric candidates are at
distance 1 and a minimizing candidate with the stated tie-breaking
properties is returned. -/
theorem claim6_witness :
    numericValues [none, some (.str strAbc), some (.num 4), some (.num 6)] ≠ [] ∧
    (∃ i, ∃ hi : i <
        (numericValues [none, some (.str strAbc), some (.num 4), some (.num 6)]).length,
      find_nearest_row [none, some (.str strAbc), some (.num 4), some (.num 6)]
          (some (.num 5)) =
        .ok (some ((numericValues [none, some (.str strAbc), some (.num 4),
          some (.num 6)]).get ⟨i, hi⟩)) ∧
      (∀ j, ∀ hj : j <
          (numericValues [none, some (.str strAbc), some (.num 4), some (.num 6)]).length,
        |((numericValues [none, some (.str strAbc), some (.num 4),
            some (.num 6)]).get ⟨i, hi⟩).2 - 5| ≤
          |((numericValues [none, some (.str strAbc), some (.num 4),
            some (.num 6)]).get ⟨j, hj⟩).2 - 5|) ∧
      (∀ j, ∀ hj : j <
          (numericValues [none, some (.str strAbc), some (.num 4), some (.num 6)]).length,
        j < i →
        |((numericValues [none, some (.str strAbc), some (.num 4),
            some (.num 6)]).get ⟨i, hi⟩).2 - 5| <
          |((numericValues [none, some (.str strAbc), some (.num 4),
            some (.num 6)]).get ⟨j, hj⟩).2 - 5| ∧
        ((numericValues [none, some (.str strAbc), some (.num 4),
            some (.num 6)]).get ⟨j, hj⟩).1 <
          ((numericValues [none, some (.str strAbc), some (.num 4),
            some (.num 6)]).get ⟨i, hi⟩).1)) :=
  ⟨by decide, claim6_locate_nearest
    [none, some (.str strAbc), some (.num 4), some (.num 6)] 5 (by decide)⟩

/-- C7: on a tick where the premium-breach condition holds, the
adjustment block runs the breach branch, whatever the state of the
distress-band condition and of the clock — the `elif` chain never
examines the distress trigger on such a tick. -/
theorem claim7_breach_priority (chain : ChainSheet) (store : TerminalStore)
    (symbol expiry : String) (lot_size : Nat) (executed_orders : List Order)
    (now_hour : Nat) (q_total k_total stoploss_value : ℚ)
    (adjustment_count fuel : Nat)
    (hbreach : stoploss_value < k_total)
    (hband : anyBand executed_orders = true) (hhour : now_hour < 14) :
    adjustBlock chain store symbol expiry lot_size executed_orders now_hour
        q_total k_total stoploss_value adjustment_count fuel =
      breachBranch chain store symbol expiry lot_size executed_orders
        q_total k_total stoploss_value adjustment_count fuel := by
  unfold adjustBlock
  rw [if_pos hbreach]

/-- Witness for C7: one leg with live premium 3 — inside the distress band
before 14:00 — while the live total 3 also breaches the stoploss 1.001;
the block reduces to the breach branch. -/
theorem claim7_witness :
    ((1001 / 1000 : ℚ) < 3) ∧
    anyBand [mkOrd 1 "CALL" (some (.num 1)) (some (.num 3))] = true ∧
    10 < 14 ∧
    adjustBlock emptyChain (constStore none none none) "NIFTY" "30OCT25" 75
        [mkOrd 1 "CALL" (some (.num 1)) (some (.num 3))] 10 1 3 (1001 / 1000) 0 1 =
      breachBranch emptyChain (constStore none none none) "NIFTY" "30OCT25" 75
        [mkOrd 1 "CALL" (some (.num 1)) (some (.num 3))] 1 3 (1001 / 1000) 0 1 := by
  refine ⟨by norm_num, by decide, by norm_num, ?_⟩
  exact claim7_breach_priority emptyChain (constStore none none none) "NIFTY"
    "30OCT25" 75 [mkOrd 1 "CALL" (some (.num 1)) (some (.num 3))] 10 1 3
    (1001 / 1000) 0 1 (by norm_num) (by decide) (by norm_num)

/-- C9: the close instruction is idempotent within a tick — issuing it a
second time for the same leg reads back the `"True_Market"` marker (or
finds it already present) and issues no further write, so two invocations
issue at most one write in total. -/
theorem claim9_close_idempotent (base : Nat → Option CellVal)
    (writes : List (Nat × CellVal)) (row : Nat) :
    closeLeg base (closeLeg base writes row).1 row =
      ((closeLeg base writes row).1, false) ∧
    (closeLeg base (closeLeg base writes row).1 row).1.length ≤
      writes.length + 1 := by
  by_cases hg : isTrueMarket (readWithWrites base writes row)
  · have h1 : closeLeg base writes row = (writes, false) := by
      unfold closeLeg
      rw [if_pos hg]
    rw [h1]
    constructor
    · show closeLeg base writes row = (writes, false)
      exact h1
    · show (closeLeg base writes row).1.length ≤ writes.length + 1
      rw [h1]
      show writes.length ≤ writes.length + 1
      omega
  · have h1 : closeLeg base writes row = (writes ++ [(row, trueMarketCell)], true) := by
      unfold closeLeg
      rw [if_neg hg]
    have hread : readWithWrites base (writes ++ [(row, trueMarketCell)]) row =
        some trueMarketCell := by
      unfold readWithWrites
      rw [List.filter_append]
      rw [show List.filter (fun p => p.1 == row) [(row, trueMarketCell)] =
          [(row, trueMarketCell)] by simp]
      rw [List.getLast?_concat]
    have htm : isTrueMarket (some trueMarketCell) = true := by decide
    have h2 : closeLeg base (writes ++ [(row, trueMarketCell)]) row =
        (writes ++ [(row, trueMarketCell)], false) := by
      unfold closeLeg
      rw [hread, if_pos htm]
    rw [h1]
    constructor
    · exact h2
    · rw [h2]
      simp

/-- Helper: with a numeric candidate present, `find_nearest_row` with a
`None` search value raises `TypeError` — `float(None)` is evaluated inside
the `min` key. -/
theorem find_nearest_row_none_target (values : List (Option CellVal))
    (hne : numericValues values ≠ []) :
    find_nearest_row values none = .error .typeError := by
  rw [find_nearest_row_of_ne values none hne]
  rfl

/-- C10: calling the Position Writer with a `None` target premium while
the CALL candidate column holds at least one numeric cell raises an
uncaught `TypeError` from the nearest-strike search, instead of returning
the NOT_FOUND result (`.ok none`); the path goes straight through the
public `write_position` interface. -/
theorem claim10_none_target_raises (chain : ChainSheet)
    (acol : List (Option CellVal)) (symbol expiry : String) (lot_size : Nat)
    (buy_or_sell entry_signal : String)
    (hne : numericValues chain.colJ ≠ []) :
    write_position chain acol symbol expiry none lot_size "CALL" buy_or_sell
      entry_signal = .error .typeError := by
  unfold write_position
  rw [show (if pyUpper "CALL" = "CALL" then some chain.colJ
      else if pyUpper "CALL" = "PUT" then some chain.colV else none) =
      some chain.colJ by rw [if_pos (by decide)]]
  simp only [find_nearest_row_none_target chain.colJ hne]

/-- Witness for C10: a chain with one numeric CALL premium and an empty
target premium cell — the write raises `TypeError` rather than returning
NOT_FOUND. -/
theorem claim10_witness :
    numericValues oneCallChain.colJ ≠ [] ∧
    write_position oneCallChain [] "NIFTY" "30OCT25" none 75 "CALL" "SELL"
      "True_Market" = .error .typeError := by
  refine ⟨by decide, ?_⟩
  exact claim10_none_target_raises oneCallChain [] "NIFTY" "30OCT25" 75 "SELL"
    "True_Market" (by decide)

/-- C8 counterexample: two tracked legs, the first already marked closed
in column `T` and carrying the larger live premium (6 versus 4 on the open
leg): `max(executed_orders, ...)` still selects the closed leg — not the
premium-maximal OPEN leg, which is the distinct second order — and the
breach branch then only bumps the adjustment counter: no close write is
issued, no replacement is placed and the order list is unchanged. -/
theorem claim8_counterexample :
    pyMaxBy keyK [mkOrd 1 "CALL" (some (.num 20)) (some (.num 6)),
        mkOrd 2 "PUT" (some (.num 18)) (some (.num 4))] =
      some (mkOrd 1 "CALL" (some (.num 20)) (some (.num 6))) ∧
    isClosed storeRow1Closed (mkOrd 1 "CALL" (some (.num 20)) (some (.num 6))) =
      true ∧
    isClosed storeRow1Closed (mkOrd 2 "PUT" (some (.num 18)) (some (.num 4))) =
      false ∧
    mkOrd 1 "CALL" (some (.num 20)) (some (.num 6)) ≠
      mkOrd 2 "PUT" (some (.num 18)) (some (.num 4)) ∧
    breachBranch emptyChain storeRow1Closed "NIFTY" "30OCT25" 75
        [mkOrd 1 "CALL" (some (.num 20)) (some (.num 6)),
          mkOrd 2 "PUT" (some (.num 18)) (some (.num 4))] 38 39 38 0 1 =
      .ok { fired := some .breach, tWrites := [],
            executed_orders := [mkOrd 1 "CALL" (some (.num 20)) (some (.num 6)),
              mkOrd 2 "PUT" (some (.num 18)) (some (.num 4))],
            q_total := 38, k_total := 39, stoploss_value := 38,
            adjustment_count := 1 } := by
  refine ⟨by decide, by decide, by decide, by decide, rfl⟩

/-- C8 (amended): when the premium-breach trigger fires, the leg selected
for closing is the first leg attaining the maximal `k_value` among ALL
tracked orders — closed legs included, an unset or non-numeric value
counting as 0 through `keyK`.  If the selected leg is already marked
closed, the branch issues no close write and places no replacement (only
the adjustment counter is bumped and the order list, totals and stoploss
are unchanged).  Otherwise the replacement search is exactly a
`write_position` call for the opposite option type with the closed leg's
`k_value` as target premium, the same lot size and side SELL, and every
non-raising run records the breach trigger and exactly the one close
write for that leg's row. -/
theorem claim8_breach_selection (chain : ChainSheet) (store : TerminalStore)
    (symbol expiry : String) (lot_size : Nat) (executed_orders : List Order)
    (q_total k_total stoploss_value : ℚ) (adjustment_count fuel : Nat)
    (losing_leg : Order)
    (hmax : pyMaxBy keyK executed_orders = some losing_leg) :
    (∀ o ∈ executed_orders, keyK o ≤ keyK losing_leg) ∧
    search_opposite_and_write chain store symbol expiry losing_leg lot_size =
      write_position chain store.acol symbol expiry losing_leg.k_value lot_size
        (oppositeType losing_leg.option_type) "SELL" "True_Market" ∧
    (isTrueMarket (store.tcol losing_leg.row) = true →
      breachBranch chain store symbol expiry lot_size executed_orders q_total
          k_total stoploss_value adjustment_count fuel =
        .ok { fired := some .breach, tWrites := [],
              executed_orders := executed_orders, q_total := q_total,
              k_total := k_total, stoploss_value := stoploss_value,
              adjustment_count := adjustment_count + 1 }) ∧
    (∀ r : AdjustResult,
      breachBranch chain store symbol expiry lot_size executed_orders q_total
          k_total stoploss_value adjustment_count fuel = .ok r →
      isTrueMarket (store.tcol losing_leg.row) = false →
      r.fired = some .breach ∧ r.tWrites = [(losing_leg.row, trueMarketCell)]) := by
  refine ⟨pyMaxBy_le keyK executed_orders losing_leg hmax, rfl, ?_, ?_⟩
  · intro hclosed
    have hclose : closeLeg store.tcol [] losing_leg.row = ([], false) := by
      unfold closeLeg readWithWrites
      simp [hclosed]
    have e1 : breachBranch chain store symbol expiry lot_size executed_orders
        q_total k_total stoploss_value adjustment_count fuel =
        breachAfterMax chain store symbol expiry lot_size executed_orders
          q_total k_total stoploss_value adjustment_count fuel losing_leg := by
      unfold breachBranch
      rw [hmax]
    rw [e1]
    unfold breachAfterMax
    rw [hclose]
  intro r hr hguard
  have hclose : closeLeg store.tcol [] losing_leg.row =
      ([] ++ [(losing_leg.row, trueMarketCell)], true) := by
    unfold closeLeg readWithWrites
    simp [hguard]
  have e1 : breachBranch chain store symbol expiry lot_size executed_orders
      q_total k_total stoploss_value adjustment_count fuel =
      breachAfterMax chain store symbol expiry lot_size executed_orders
        q_total k_total stoploss_value adjustment_count fuel losing_leg := by
    unfold breachBranch
    rw [hmax]
  have e2 : breachAfterMax chain store symbol expiry lot_size executed_orders
      q_total k_total stoploss_value adjustment_count fuel losing_leg =
      breachAfterClose chain store symbol expiry lot_size executed_orders
        q_total k_total stoploss_value adjustment_count fuel losing_leg
        ([] ++ [(losing_leg.row, trueMarketCell)]) := by
    unfold breachAfterMax
    rw [hclose]
  rw [e1, e2] at hr
  unfold breachAfterClose at hr
  cases hs : search_opposite_and_write chain store symbol expiry losing_leg lot_size with
  | error e =>
    simp only [hs] at hr
    cases hr
  | ok new? =>
    simp only [hs] at hr
    cases new? with
    | none =>
      cases hr
      exact ⟨rfl, rfl⟩
    | some new_order =>
      cases hf : fetch_qk_values store (executed_orders ++ [new_order]) fuel with
      | error e =>
        simp only [hf] at hr
        cases hr
      | ok t =>
        simp only [hf] at hr
        obtain ⟨q', k', snap', orders'⟩ := t
        cases hr
        exact ⟨rfl, rfl⟩

/-- Witness for C8 (amended): two legs with live premiums 6 and 4 —
Python `max` selects the first leg and its key bounds the other's; the
replacement search is the stated `write_position` call; and with that leg
already marked closed the branch reduces to the counter-bump-only skip
result. -/
theorem claim8_witness :
    pyMaxBy keyK [mkOrd 1 "CALL" (some (.num 20)) (some (.num 6)),
        mkOrd 2 "PUT" (some (.num 18)) (some (.num 4))] =
      some (mkOrd 1 "CALL" (some (.num 20)) (some (.num 6))) ∧
    keyK (mkOrd 2 "PUT" (some (.num 18)) (some (.num 4))) ≤
      keyK (mkOrd 1 "CALL" (some (.num 20)) (some (.num 6))) ∧
    search_opposite_and_write emptyChain (constStore none none none) "NIFTY"
        "30OCT25" (mkOrd 1 "CALL" (some (.num 20)) (some (.num 6))) 75 =
      write_position emptyChain (constStore none none none).acol "NIFTY" "30OCT25"
        (mkOrd 1 "CALL" (some (.num 20)) (some (.num 6))).k_value 75
        (oppositeType (mkOrd 1 "CALL" (some (.num 20)) (some (.num 6))).option_type)
        "SELL" "True_Market" ∧
    breachBranch emptyChain storeRow1Closed "NIFTY" "30OCT25" 75
        [mkOrd 1 "CALL" (some (.num 20)) (some (.num 6)),
          mkOrd 2 "PUT" (some (.num 18)) (some (.num 4))] 38 39 38 7 1 =
      .ok { fired := some .breach, tWrites := [],
            executed_orders := [mkOrd 1 "CALL" (some (.num 20)) (some (.num 6)),
              mkOrd 2 "PUT" (some (.num 18)) (some (.num 4))],
            q_total := 38, k_total := 39, stoploss_value := 38,
            adjustment_count := 7 + 1 } := by
  have h := claim8_breach_selection emptyChain (constStore none none none)
    "NIFTY" "30OCT25" 75
    [mkOrd 1 "CALL" (some (.num 20)) (some (.num 6)),
      mkOrd 2 "PUT" (some (.num 18)) (some (.num 4))]
    0 0 0 0 1 (mkOrd 1 "CALL" (some (.num 20)) (some (.num 6))) (by decide)
  have hskip := claim8_breach_selection emptyChain storeRow1Closed
    "NIFTY" "30OCT25" 75
    [mkOrd 1 "CALL" (some (.num 20)) (some (.num 6)),
      mkOrd 2 "PUT" (some (.num 18)) (some (.num 4))]
    38 39 38 7 1 (mkOrd 1 "CALL" (some (.num 20)) (some (.num 6))) (by decide)
  exact ⟨by decide, h.1 _ (by simp), h.2.1, hskip.2.2.1 (by decide)⟩

/-- C1 counterexample: 16:00 is at or after 15:29, yet the tick does not
square off — the gate compares the hour with `==`, so any hour other than
15 falls through to the ordinary monitoring logic. -/
theorem claim1_counterexample :
    timeAtOrAfter 16 0 SQUARE_OFF_HOUR SQUARE_OFF_MINUTE ∧
    isSquaredOffB (monitorTick 16 0
      (constStore (some (.num 10)) (some (.num 6)) none)
      [mkOrd 1 "CALL" none none] 0 1) = false := by
  constructor
  · exact Or.inl (by decide)
  · simp [monitorTick, SQUARE_OFF_HOUR, SQUARE_OFF_MINUTE, fetch_qk_values,
      fetchGo, constStore, mkOrd, pollEntry, coerceQ, pyFloatVal, readK,
      pyOrZero, pyTruthy, isSquaredOffB]

/-- C1 (amended): the monitoring tick squares off exactly when the hour
equals 15 and the minute is at least 29 — not at any later hour.  When the
gate holds it fires before any other per-tick logic, independently of the
store and of the trigger state, and issues one `"True_Market"` close write
for every tracked leg, after which the loop terminates. -/
theorem claim1_squareoff_gate (now_hour now_minute : Nat) (store : TerminalStore)
    (executed_orders : List Order) (adjustment_count fuel : Nat) :
    (isSquaredOffB (monitorTick now_hour now_minute store executed_orders
        adjustment_count fuel) = true ↔ (now_hour = 15 ∧ 29 ≤ now_minute)) ∧
    (now_hour = 15 → 29 ≤ now_minute →
      monitorTick now_hour now_minute store executed_orders adjustment_count fuel =
        .squaredOff (executed_orders.map fun o => (o.row, trueMarketCell))) := by
  by_cases hg : now_hour = SQUARE_OFF_HOUR ∧ SQUARE_OFF_MINUTE ≤ now_minute
  · have hmt : monitorTick now_hour now_minute store executed_orders
        adjustment_count fuel =
        .squaredOff (executed_orders.map fun o => (o.row, trueMarketCell)) := by
      unfold monitorTick
      rw [if_pos hg]
    exact ⟨⟨fun _ => hg, fun _ => by rw [hmt]; rfl⟩, fun _ _ => hmt⟩
  · have hmt : isSquaredOffB (monitorTick now_hour now_minute store
        executed_orders adjustment_count fuel) = false := by
      unfold monitorTick
      rw [if_neg hg]
      cases hf : fetch_qk_values store executed_orders fuel with
      | error e => rfl
      | ok t =>
        obtain ⟨q, k, snap, os⟩ := t
        rfl
    constructor
    · rw [hmt]
      exact ⟨fun h => absurd h (by simp), fun h => absurd h hg⟩
    · intro h1 h2
      exact absurd ⟨h1, h2⟩ hg

/-- Witness for C1 (amended) at 15:30 with one tracked leg: the gate fires
and the leg's row receives the close write. -/
theorem claim1_witness :
    isSquaredOffB (monitorTick 15 30 (constStore none none none)
      [mkOrd 1 "CALL" none none] 0 1) = true ∧
    monitorTick 15 30 (constStore none none none)
      [mkOrd 1 "CALL" none none] 0 1 = .squaredOff [(1, trueMarketCell)] := by
  have h := claim1_squareoff_gate 15 30 (constStore none none none)
    [mkOrd 1 "CALL" none none] 0 1
  refine ⟨h.1.mpr ⟨rfl, by omega⟩, ?_⟩
  have h2 := h.2 rfl (by omega)
  rw [h2]
  rfl

/-- C4 counterexample: a single open leg with live premium 6 — inside the
claim's band [5, 8] — before the 14:00 cutoff, with no stoploss breach:
no trigger fires at all, because the code's distress band is `1 <= k <= 5`
and 6 lies outside it. -/
theorem claim4_counterexample :
    ((5 : ℚ) ≤ 6 ∧ (6 : ℚ) ≤ 8) ∧ 10 < 14 ∧
    adjustBlock emptyChain (constStore none none none) "NIFTY" "30OCT25" 75
        [mkOrd 1 "CALL" (some (.num 10)) (some (.num 6))] 10 10 6
        (1001 / 100) 0 1 =
      .ok { fired := none, tWrites := [],
            executed_orders := [mkOrd 1 "CALL" (some (.num 10)) (some (.num 6))],
            q_total := 10, k_total := 6, stoploss_value := 1001 / 100,
            adjustment_count := 0 } := by
  refine ⟨by norm_num, by norm_num, ?_⟩
  unfold adjustBlock
  rw [if_neg (by norm_num : ¬ (1001 / 100 : ℚ) < 6)]
  rw [if_neg ?_]
  have hb : anyBand [mkOrd 1 "CALL" (some (.num 10)) (some (.num 6))] = false := by
    decide
  simp [hb]

/-- C4 (amended): the distress band of the code is the inclusive interval
[1, 5] with cutoff hour 14.  For a single open leg whose live premium lies
in [1, 5], before 14:00 and with no stoploss breach, the block runs the
distress branch, which selects that leg and — when the leg is not already
closed — any non-raising run records the distress trigger and exactly one
close write for that leg's row (followed by the replacement attempt
embedded in the branch); at or after 14:00 the same premium condition
fires nothing. -/
theorem claim4_distress_band (chain : ChainSheet) (store : TerminalStore)
    (symbol expiry : String) (lot_size : Nat) (o : Order) (now_hour : Nat)
    (q_total k_total stoploss_value : ℚ) (adjustment_count fuel : Nat) (x : ℚ)
    (hk : o.k_value = some (.num x)) (hx1 : 1 ≤ x) (hx2 : x ≤ 5)
    (hsl : ¬ stoploss_value < k_total) :
    (now_hour < 14 →
      adjustBlock chain store symbol expiry lot_size [o] now_hour q_total
          k_total stoploss_value adjustment_count fuel =
        distressBranch chain store symbol expiry lot_size [o] q_total k_total
          stoploss_value adjustment_count fuel ∧
      List.find? bandHit [o] = some o ∧
      (∀ r : AdjustResult,
        distressBranch chain store symbol expiry lot_size [o] q_total k_total
            stoploss_value adjustment_count fuel = .ok r →
        isTrueMarket (store.tcol o.row) = false →
        r.fired = some .distress ∧ r.tWrites = [(o.row, trueMarketCell)])) ∧
    (14 ≤ now_hour →
      adjustBlock chain store symbol expiry lot_size [o] now_hour q_total
          k_total stoploss_value adjustment_count fuel =
        .ok { fired := none, tWrites := [], executed_orders := [o],
              q_total := q_total, k_total := k_total,
              stoploss_value := stoploss_value,
              adjustment_count := adjustment_count }) := by
  have hband : bandHit o = true := by
    unfold bandHit
    rw [hk]
    exact decide_eq_true ⟨hx1, hx2⟩
  have hany : anyBand [o] = true := by simp [anyBand, hband]
  have hfind : List.find? bandHit [o] = some o := by
    simp [List.find?, hband]
  constructor
  · intro hh
    refine ⟨?_, hfind, ?_⟩
    · unfold adjustBlock
      rw [if_neg hsl, if_pos (by simp [hany, hh])]
    · intro r hr hguard
      have hclose : closeLeg store.tcol [] o.row =
          ([] ++ [(o.row, trueMarketCell)], true) := by
        unfold closeLeg readWithWrites
        simp [hguard]
      have e1 : distressBranch chain store symbol expiry lot_size [o] q_total
          k_total stoploss_value adjustment_count fuel =
          distressAfterFind chain store symbol expiry lot_size [o] q_total
            k_total stoploss_value adjustment_count fuel o := by
        unfold distressBranch
        rw [hfind]
      have e2 : distressAfterFind chain store symbol expiry lot_size [o] q_total
          k_total stoploss_value adjustment_count fuel o =
          distressAfterClose chain store symbol expiry lot_size [o] q_total
            k_total stoploss_value adjustment_count fuel o
            ([] ++ [(o.row, trueMarketCell)]) := by
        unfold distressAfterFind
        rw [hclose]
      rw [e1, e2] at hr
      unfold distressAfterClose at hr
      cases hs : search_opposite_and_write chain store symbol expiry o lot_size with
      | error e =>
        simp only [hs] at hr
        cases hr
      | ok new? =>
        simp only [hs] at hr
        cases new? with
        | none =>
          cases hf : fetch_qk_values store [o] fuel with
          | error e =>
            simp only [hf] at hr
            cases hr
          | ok t =>
            simp only [hf] at hr
            obtain ⟨q', k', snap', orders'⟩ := t
            cases hr
            exact ⟨rfl, rfl⟩
        | some new_order =>
          cases hf : fetch_qk_values store ([o] ++ [new_order]) fuel with
          | error e =>
            simp only [hf] at hr
            cases hr
          | ok t =>
            simp only [hf] at hr
            obtain ⟨q', k', snap', orders'⟩ := t
            cases hr
            exact ⟨rfl, rfl⟩
  · intro hh
    unfold adjustBlock
    rw [if_neg hsl, if_neg ?_]
    simp only [hany, Bool.true_and, decide_eq_true_eq]
    omega

/-- Witness for C4 (amended): a single leg with live premium 3 at 10:00,
stoploss not breached — the block reduces to the distress branch. -/
theorem claim4_witness :
    (mkOrd 1 "CALL" (some (.num 10)) (some (.num 3))).k_value = some (.num 3) ∧
    (1 : ℚ) ≤ 3 ∧ (3 : ℚ) ≤ 5 ∧ ¬ ((1001 / 100 : ℚ) < 3) ∧
    adjustBlock emptyChain (constStore none none none) "NIFTY" "30OCT25" 75
        [mkOrd 1 "CALL" (some (.num 10)) (some (.num 3))] 10 10 3
        (1001 / 100) 0 1 =
      distressBranch emptyChain (constStore none none none) "NIFTY" "30OCT25" 75
        [mkOrd 1 "CALL" (some (.num 10)) (some (.num 3))] 10 3
        (1001 / 100) 0 1 := by
  refine ⟨rfl, by norm_num, by norm_num, by norm_num, ?_⟩
  exact ((claim4_distress_band emptyChain (constStore none none none) "NIFTY"
    "30OCT25" 75 (mkOrd 1 "CALL" (some (.num 10)) (some (.num 3))) 10 10 3
    (1001 / 100) 0 1 3 rfl (by norm_num) (by norm_num) (by norm_num)).1
    (by norm_num)).1

/-- C2 counterexample: two tracked legs whose `K` cells both read 5, the
first of which is already marked closed (`T` = `"True_Market"`): the
aggregator still sums both legs (`k_total` evaluates to 5 + 5 = 10),
whereas a sum over open legs only would give 5 — a closed leg keeps
contributing. -/
theorem claim2_counterexample :
    isClosed storeRow1Closed (mkOrd 1 "CALL" none none) = true ∧
    kTotalOf (fetch_qk_values storeRow1Closed
      [mkOrd 1 "CALL" none none, mkOrd 2 "PUT" none none] 1) = some (0 + 5 + 5) ∧
    specOpenKTotal storeRow1Closed
      [mkOrd 1 "CALL" none none, mkOrd 2 "PUT" none none] = 5 ∧
    (0 + 5 + 5 : ℚ) ≠ 5 := by
  refine ⟨by decide, rfl, ?_, by norm_num⟩
  have hfil : List.filter (fun o => !isClosed storeRow1Closed o)
      [mkOrd 1 "CALL" none none, mkOrd 2 "PUT" none none] =
      [mkOrd 2 "PUT" none none] := by decide
  unfold specOpenKTotal
  rw [hfil]
  simp [readK, storeRow1Closed, pyFloatVal]

/-- C2 (amended): `entry_total` and `live_total` are sums over all orders
in `executed_orders`, closed legs included — a leg closed during an
adjustment is never removed from the list and keeps contributing to both
totals on every later call. -/
theorem claim2_totals_all_orders (store : TerminalStore) (orders : List Order)
    (fuel : Nat) (q k : ℚ) (snap : List (Nat × CellVal × ℚ)) (os : List Order)
    (h : fetch_qk_values store orders fuel = .ok (q, k, snap, os)) :
    q = (orders.map fun o => qContrib store fuel o).sum ∧
    k = (orders.map fun o => readK (store.kcol o.row)).sum := by
  have htot := fetchGo_ok_totals store fuel orders 0 0 [] [] q k snap os h
  simpa using htot

/-- Witness for C2 (amended) on a one-leg list with `Q` = 10, `K` = 5. -/
theorem claim2_witness :
    fetch_qk_values (constStore (some (.num 10)) (some (.num 5)) none)
      [mkOrd 1 "CALL" none none] 1 =
      .ok (0 + 10, 0 + 5, [(1, .num 10, 5)],
        [mkOrd 1 "CALL" (some (.num 10)) (some (.num 5))]) ∧
    (0 + 10 : ℚ) = ([mkOrd 1 "CALL" none none].map fun o =>
      qContrib (constStore (some (.num 10)) (some (.num 5)) none) 1 o).sum ∧
    (0 + 5 : ℚ) = ([mkOrd 1 "CALL" none none].map fun o =>
      readK ((constStore (some (.num 10)) (some (.num 5)) none).kcol o.row)).sum := by
  have h : fetch_qk_values (constStore (some (.num 10)) (some (.num 5)) none)
      [mkOrd 1 "CALL" none none] 1 =
      .ok (0 + 10, 0 + 5, [(1, .num 10, 5)],
        [mkOrd 1 "CALL" (some (.num 10)) (some (.num 5))]) := rfl
  have h2 := claim2_totals_all_orders
    (constStore (some (.num 10)) (some (.num 5)) none)
    [mkOrd 1 "CALL" none none] 1 (0 + 10) (0 + 5) [(1, .num 10, 5)]
    [mkOrd 1 "CALL" (some (.num 10)) (some (.num 5))] h
  exact ⟨h, h2.1, h2.2⟩

/-- C3 counterexample: a leg whose entry premium 20 was observed on an
earlier call (`q_value = 20`) while its `Q` cell now reads 30: the next
aggregator call reports `entry_total` 30 — the entry cell is re-read and
the first-observed value is not used. -/
theorem claim3_counterexample :
    (mkOrd 1 "CALL" (some (.num 20)) none).q_value = some (.num 20) ∧
    qTotalOf (fetch_qk_values (constStore (some (.num 30)) none none)
      [mkOrd 1 "CALL" (some (.num 20)) none] 1) = some (0 + 30) ∧
    (0 + 30 : ℚ) ≠ 20 := by
  exact ⟨rfl, rfl, by norm_num⟩

/-- C3 (amended): the aggregator re-reads every leg's entry cell on every
call — its totals (and any raised exception) depend only on the legs'
rows and on the Quote Store, never on the premium values already stored
in the order dicts, which are overwritten by the call. -/
theorem claim3_reread_every_call (store : TerminalStore) (fuel : Nat)
    (orders orders' : List Order)
    (h : orders.map (fun o => o.row) = orders'.map (fun o => o.row)) :
    totalsOf (fetch_qk_values store orders fuel) =
      totalsOf (fetch_qk_values store orders' fuel) :=
  fetchGo_totals_row_only store fuel orders orders' 0 0 [] [] [] [] h

/-- Witness for C3 (amended): the same row with a stale stored entry
premium of 20 versus an unset one — identical totals. -/
theorem claim3_witness :
    ([mkOrd 1 "CALL" (some (.num 20)) none].map fun o => o.row) =
      ([mkOrd 1 "CALL" none none].map fun o => o.row) ∧
    totalsOf (fetch_qk_values (constStore (some (.num 30)) none none)
        [mkOrd 1 "CALL" (some (.num 20)) none] 1) =
      totalsOf (fetch_qk_values (constStore (some (.num 30)) none none)
        [mkOrd 1 "CALL" none none] 1) :=
  ⟨rfl, claim3_reread_every_call (constStore (some (.num 30)) none none) 1
    [mkOrd 1 "CALL" (some (.num 20)) none] [mkOrd 1 "CALL" none none] rfl⟩

/-- C5 counterexample: a `Q` cell holding the unparseable string `"abc"`:
the poll ends on the first read — well before the timeout — with the raw
string, and the aggregate call then raises `TypeError` when the string is
added to `q_total`, instead of completing normally with 0. -/
theorem claim5_counterexample :
    pollEntry (fun _ => some (.str strAbc)) 0 3 = some (.str strAbc) ∧
    fetch_qk_values (constStore (some (.str strAbc)) none none)
      [mkOrd 1 "CALL" none none] 3 = .error .typeError := by
  exact ⟨rfl, rfl⟩

/-- C5 (amended): the entry cell is polled until any non-`None` value
appears or the per-leg timeout elapses.  On timeout the leg's entry
premium is recorded as 0 and the call completes normally.  A non-`None`
value ends the wait immediately even when it is not numeric; a falsy
non-numeric value is coerced to 0, while a truthy non-numeric value is fed
into the totals and makes the call raise `TypeError`. -/
theorem claim5_entry_poll :
    (∀ (qread : Nat → Option CellVal), (∀ t, qread t = none) →
      ∀ attempt fuel, pollEntry qread attempt fuel = none) ∧
    (∀ (store : TerminalStore) (o : Order) (fuel : Nat),
      (∀ t, store.qcol o.row t = none) →
      fetch_qk_values store [o] fuel =
        .ok (0, readK (store.kcol o.row),
          [(o.row, .num 0, readK (store.kcol o.row))],
          [{ o with
              q_value := some (.num 0)
              k_value := some (.num (readK (store.kcol o.row))) }])) ∧
    (∀ (qread : Nat → Option CellVal) (v : CellVal) (fuel : Nat),
      qread 0 = some v → pollEntry qread 0 (fuel + 1) = some (coerceQ v)) ∧
    (∀ (store : TerminalStore) (o : Order) (rest : List Order) (sv : StrVal)
      (fuel : Nat), store.qcol o.row 0 = some (.str sv) → sv.asFloat = none →
      sv.s ≠ "" →
      fetch_qk_values store (o :: rest) (fuel + 1) = .error .typeError) := by
  refine ⟨?_, ?_, ?_, ?_⟩
  · intro qread h attempt fuel
    exact pollEntry_none qread h fuel attempt
  · intro store o fuel h
    have hp : pollEntry (store.qcol o.row) 0 fuel = none :=
      pollEntry_none (store.qcol o.row) h fuel 0
    show fetchGo store fuel [o] 0 0 [] [] = _
    simp [fetchGo, hp, pyOrZero]
  · intro qread v fuel h
    exact pollEntry_first_read qread v h fuel
  · intro store o rest sv fuel h1 h2 h3
    have hp : pollEntry (store.qcol o.row) 0 (fuel + 1) =
        some (coerceQ (.str sv)) :=
      pollEntry_first_read (store.qcol o.row) (.str sv) h1 fuel
    have hc : coerceQ (.str sv) = .str sv := by
      simp [coerceQ, pyFloatVal, h2]
    have ht : pyTruthy (.str sv) = true := by
      simp [pyTruthy, h3]
    show fetchGo store (fuel + 1) (o :: rest) 0 0 [] [] = _
    simp [fetchGo, hp, hc, pyOrZero, ht]

/-- Witness for C5 (amended): a never-populating cell times out to 0 with
a normal completion; the string `"abc"` ends the wait at once and the call
raises. -/
theorem claim5_witness :
    pollEntry (fun _ => (none : Option CellVal)) 0 2 = none ∧
    fetch_qk_values (constStore none (some (.num 7)) none)
      [mkOrd 1 "CALL" none none] 2 =
      .ok (0, 7, [(1, .num 0, 7)],
        [mkOrd 1 "CALL" (some (.num 0)) (some (.num 7))]) ∧
    pollEntry (fun _ => some (.str strAbc)) 0 1 = some (coerceQ (.str strAbc)) ∧
    fetch_qk_values (constStore (some (.str strAbc)) none none)
      [mkOrd 1 "CALL" none none] 1 = .error .typeError := by
  have h := claim5_entry_poll
  exact ⟨h.1 (fun _ => none) (fun t => rfl) 0 2,
    h.2.1 (constStore none (some (.num 7)) none) (mkOrd 1 "CALL" none none) 2
      (fun t => rfl),
    h.2.2.1 (fun _ => some (.str strAbc)) (.str strAbc) 0 rfl,
    h.2.2.2 (constStore (some (.str strAbc)) none none)
      (mkOrd 1 "CALL" none none) [] strAbc 0 rfl rfl (by decide)⟩

end Trader
